import Mathlib

/-!
# Verification of the LLMAgentCrypto configuration shell and strategy stub

A shallow embedding of `crypto_journey/crypto_shell.py` (the interactive
configuration shell: parameter validation, configuration store, save/load)
and `crypto_journey/randobot.py` (the `MLTrader` strategy stub:
`position_sizing` and `on_trading_iteration`), together with theorems
settling the specification claims about them.

Python `float` values are modelled by `PyFloat`: finite doubles are carried
as exact rationals and every arithmetic operation applies IEEE-754 binary64
round-to-nearest-even (`roundDoubleQ`), so that rounding phenomena visible
to the code (e.g. `(1/49)*49 < 1`) are reproduced faithfully.  `NaN` and the
infinities are explicit constructors; negative zero is identified with zero
(no claim distinguishes them).  Strings are processed on their `List Char`
data so that everything evaluates by `decide`/`rfl`.
-/

set_option maxRecDepth 4000

namespace CryptoJourney

/-! ## Character and numeric utilities -/

def isDigitCh (c : Char) : Bool := '0' ≤ c && c ≤ '9'

def isDigit19 (c : Char) : Bool := '1' ≤ c && c ≤ '9'

/-- ASCII whitespace, the fragment of Python's whitespace set our inputs use. -/
def isSpaceCh (c : Char) : Bool :=
  c = ' ' || c = '\t' || c = '\n' || c = '\r' || c = '\x0b' || c = '\x0c'

/-- ASCII lower-casing, the fragment of `str.lower` our inputs use. -/
def lcChar (c : Char) : Char :=
  if 'A' ≤ c && c ≤ 'Z' then Char.ofNat (c.toNat + 32) else c

def digitVal (c : Char) : Nat := c.toNat - 48

def digitsToNat (cs : List Char) : Nat :=
  cs.foldl (fun acc c => acc * 10 + digitVal c) 0

/-- Binary exponentiation with fuel (shallow recursion, so evaluation by
the elaborator and kernel stays within recursion limits). -/
def npowAux (b : Nat) : Nat → Nat → Nat
  | 0, _ => 1
  | fuel + 1, n =>
    if n = 0 then 1
    else
      let h := npowAux b fuel (n / 2)
      if n % 2 = 0 then h * h else h * h * b

/-- `b ^ n` on ℕ via binary exponentiation (64 halvings cover every
exponent this development uses). -/
def npow (b n : Nat) : Nat := npowAux b 64 n

/-!
The rational operations used below are spelled through `mkRat` and the
`num`/`den` projections (rather than the library's `Rat.add`/`Rat.mul`/…,
which are `@[irreducible]`) so that every concrete computation in this file
evaluates by `decide`.  They are the ordinary field operations on ℚ.
-/

/-- Multiplication on ℚ. -/
def qmul (a b : ℚ) : ℚ := mkRat (a.num * b.num) (a.den * b.den)

/-- Division on ℚ (division by zero gives zero, as for `Rat.div`). -/
def qdiv (a b : ℚ) : ℚ :=
  if 0 ≤ b.num then mkRat (a.num * (b.den : Int)) (a.den * b.num.natAbs)
  else mkRat (-(a.num * (b.den : Int))) (a.den * b.num.natAbs)

/-- Subtraction on ℚ. -/
def qsub (a b : ℚ) : ℚ := mkRat (a.num * (b.den : Int) - b.num * (a.den : Int)) (a.den * b.den)

/-- Negation on ℚ. -/
def qneg (a : ℚ) : ℚ := mkRat (-a.num) a.den

/-- Absolute value on ℚ. -/
def qabs (a : ℚ) : ℚ := if a.num < 0 then qneg a else a

/-- `2 ^ e` over ℚ for an integer exponent. -/
def pow2 (e : Int) : ℚ :=
  if 0 ≤ e then mkRat (npow 2 e.toNat : Nat) 1 else mkRat 1 (npow 2 (-e).toNat)

/-- `10 ^ e` over ℚ for an integer exponent. -/
def pow10 (e : Int) : ℚ :=
  if 0 ≤ e then mkRat (npow 10 e.toNat : Nat) 1 else mkRat 1 (npow 10 (-e).toNat)

/-- Round a rational to the nearest integer, ties to even. -/
def roundHalfEven (x : ℚ) : Int :=
  let f := x.floor
  let r := qsub x (mkRat f 1)
  if Rat.blt r (mkRat 1 2) then f
  else if Rat.blt (mkRat 1 2) r then f + 1
  else if f % 2 = 0 then f else f + 1

/-- Fuel-driven base-2 logarithm on ℕ (structural, so it kernel-reduces). -/
def nlog2 : Nat → Nat → Nat
  | 0, _ => 0
  | fuel + 1, n => if n < 2 then 0 else nlog2 fuel (n / 2) + 1

/-- `⌊log₂ q⌋` for a positive rational `q`. -/
def floorLog2 (q : ℚ) : Int :=
  let a := q.num.natAbs
  let b := q.den
  let e0 : Int := (nlog2 a a : Int) - (nlog2 b b : Int)
  if Rat.blt q (pow2 (e0 + 1)) then
    (if Rat.blt q (pow2 e0) then e0 - 1 else e0)
  else e0 + 1

/-! ## Python floats (IEEE-754 binary64) -/

/-- A Python `float`: a finite binary64 value (carried as its exact rational
value), an infinity, or a NaN.  Negative zero is identified with zero. -/
inductive PyFloat where
  | finite (q : ℚ)
  | inf
  | neginf
  | nan
  deriving DecidableEq, Repr

/-- `2 ^ 1024` as a literal (the binary64 overflow bound), spelled out so
that kernel evaluation never has to expand a large exponentiation. -/
def twoPow1024 : ℚ := mkRat 179769313486231590772930519078902473361797697894230657273430081157732675805500963132708477322407536021120113879871393357658789768814416622492847430639474124377767893424865485276302219601246094119453082952085005768838150682342462881473913110540827237163350510684586298239947245938479716304835356329624224137216 1

/-- Round an exact rational to the nearest binary64 value
(round-to-nearest, ties-to-even), overflowing to an infinity. -/
def roundDoubleQ (q : ℚ) : PyFloat :=
  if q = 0 then .finite 0
  else
    let neg := Rat.blt q 0
    let aq := qabs q
    let e := floorLog2 aq
    let E := max (e - 52) (-1074)
    let n := roundHalfEven (qdiv aq (pow2 E))
    let v := qmul (mkRat n 1) (pow2 E)
    if Rat.blt v twoPow1024 then .finite (if neg then qneg v else v)
    else (if neg then .neginf else .inf)

namespace PyFloat

/-- IEEE `<` (false whenever an operand is NaN). -/
def lt : PyFloat → PyFloat → Bool
  | nan, _ => false
  | _, nan => false
  | finite a, finite b => Rat.blt a b
  | finite _, inf => true
  | finite _, neginf => false
  | inf, _ => false
  | neginf, neginf => false
  | neginf, _ => true

/-- IEEE `==` (false whenever an operand is NaN). -/
def eqb : PyFloat → PyFloat → Bool
  | nan, _ => false
  | _, nan => false
  | finite a, finite b => if a = b then true else false
  | inf, inf => true
  | neginf, neginf => true
  | _, _ => false

/-- IEEE `<=`. -/
def le (a b : PyFloat) : Bool := lt a b || eqb a b

/-- IEEE `>`. -/
def gt (a b : PyFloat) : Bool := lt b a

/-- IEEE multiplication: finite products are correctly rounded. -/
def mul : PyFloat → PyFloat → PyFloat
  | nan, _ => nan
  | _, nan => nan
  | inf, inf => inf
  | inf, neginf => neginf
  | neginf, inf => neginf
  | neginf, neginf => inf
  | inf, finite q => if q = 0 then nan else if Rat.blt 0 q then inf else neginf
  | finite q, inf => if q = 0 then nan else if Rat.blt 0 q then inf else neginf
  | neginf, finite q => if q = 0 then nan else if Rat.blt 0 q then neginf else inf
  | finite q, neginf => if q = 0 then nan else if Rat.blt 0 q then neginf else inf
  | finite a, finite b => roundDoubleQ (qmul a b)

/-- The Python exceptions our embedding can surface. -/
inductive Exn where
  | zeroDivision
  | typeError
  deriving DecidableEq

/-- IEEE division for a nonzero divisor: finite quotients are correctly
rounded. -/
def divnz : PyFloat → PyFloat → PyFloat
  | nan, _ => nan
  | _, nan => nan
  | inf, inf => nan
  | inf, neginf => nan
  | neginf, inf => nan
  | neginf, neginf => nan
  | finite _, inf => finite 0
  | finite _, neginf => finite 0
  | inf, finite q => if Rat.blt 0 q then inf else neginf
  | neginf, finite q => if Rat.blt 0 q then neginf else inf
  | finite a, finite b => roundDoubleQ (qdiv a b)

/-- Division as Python performs it: dividing any float by `0.0` raises
`ZeroDivisionError`; otherwise IEEE division. -/
def div (a b : PyFloat) : Except Exn PyFloat :=
  if b = finite 0 then .error .zeroDivision else .ok (divnz a b)

end PyFloat

/-! ## Python `float(str)` parsing

CPython's float constructor: strip surrounding whitespace, then an optional
sign followed by `inf`/`infinity`/`nan` (case-insensitive) or a decimal
literal `digits [. digits] [(e|E) [sign] digits]` in which single
underscores may appear between digits; the exact decimal value is then
correctly rounded to binary64.  (ASCII fragment: exotic Unicode digit and
whitespace characters, which CPython also accepts, are out of scope.) -/

/-- Read a (possibly empty) run of digits in which single underscores may
appear between digits, returning the digits (underscores removed) and the
rest.  `none` means a malformed underscore placement, which makes the whole
literal invalid.  Fuel-driven so the recursion is structural; callers pass
fuel exceeding the list length, so the fuel-exhausted branch is dead. -/
def digitRunF : Nat → List Char → Option (List Char × List Char)
  | 0, cs => some ([], cs)
  | fuel + 1, cs =>
    match cs with
    | [] => some ([], [])
    | c :: rest =>
      if isDigitCh c then
        match rest with
        | '_' :: rest2 =>
          match rest2 with
          | d :: _ =>
            if isDigitCh d then (digitRunF fuel rest2).map (fun p => (c :: p.1, p.2))
            else none
          | [] => none
        | _ => (digitRunF fuel rest).map (fun p => (c :: p.1, p.2))
      else some ([], cs)

def digitRun (cs : List Char) : Option (List Char × List Char) :=
  digitRunF (cs.length + 1) cs

/-- Parse the exponent part after `e`/`E`: an optional sign and a nonempty
digit run. -/
def parseExpPart (cs : List Char) : Option (Int × List Char) :=
  let (sgn, cs') : Int × List Char :=
    match cs with
    | '+' :: r => (1, r)
    | '-' :: r => (-1, r)
    | r => (1, r)
  match digitRun cs' with
  | some (ds, rest) => if ds = [] then none else some (sgn * digitsToNat ds, rest)
  | none => none

/-- Parse an unsigned float literal (after sign stripping). -/
def parseUnsignedFloat (cs : List Char) : Option PyFloat :=
  let lcs := cs.map lcChar
  if lcs = ['i', 'n', 'f'] || lcs = ['i', 'n', 'f', 'i', 'n', 'i', 't', 'y'] then
    some .inf
  else if lcs = ['n', 'a', 'n'] then some .nan
  else
    match digitRun cs with
    | none => none
    | some (ip, r1) =>
      let fracStep : Option (List Char × List Char) :=
        match r1 with
        | '.' :: r => digitRun r
        | _ => some ([], r1)
      match fracStep with
      | none => none
      | some (fp, r2) =>
        if ip = [] && fp = [] then none
        else
          let expStep : Option (Int × List Char) :=
            match r2 with
            | 'e' :: r => parseExpPart r
            | 'E' :: r => parseExpPart r
            | r => some (0, r)
          match expStep with
          | none => none
          | some (ex, r3) =>
            if r3 = [] then
              some (roundDoubleQ
                (qmul (mkRat (digitsToNat (ip ++ fp) : Int) 1) (pow10 (ex - (fp.length : Int)))))
            else none

/-- Negate a Python float (`-nan` is `nan`; negated zero stays zero). -/
def PyFloat.neg : PyFloat → PyFloat
  | .finite q => .finite (qneg q)
  | .inf => .neginf
  | .neginf => .inf
  | .nan => .nan

/-- `float(s)` for a Python string `s`: `some x` if the conversion succeeds,
`none` if it raises `ValueError`. -/
def pyFloatOfString (s : String) : Option PyFloat :=
  let cs := ((s.data.dropWhile isSpaceCh).reverse.dropWhile isSpaceCh).reverse
  match cs with
  | '+' :: r => parseUnsignedFloat r
  | '-' :: r => (parseUnsignedFloat r).map PyFloat.neg
  | r => parseUnsignedFloat r

/-! ## Python `repr`/`str` of a float

CPython renders a finite float as the shortest decimal digit string
(1 to 17 significant digits) that rounds back to the same binary64 value,
in fixed notation when the decimal exponent is in `[-4, 16)` and scientific
notation otherwise. -/

/-- Fuel-driven base-10 digit count on ℕ. -/
def ndigits10 : Nat → Nat → Nat
  | 0, _ => 1
  | fuel + 1, n => if n < 10 then 1 else ndigits10 fuel (n / 10) + 1

/-- `⌊log₁₀ q⌋` for a positive rational `q`. -/
def floorLog10 (q : ℚ) : Int :=
  let a := q.num.natAbs
  let b := q.den
  let e0 : Int := (ndigits10 a a : Int) - (ndigits10 b b : Int)
  if Rat.blt q (pow10 (e0 + 1)) then
    (if Rat.blt q (pow10 e0) then e0 - 1 else e0)
  else e0 + 1

/-- Round positive `q` to `n` significant decimal digits: returns `(M, k)`
with `10^(n-1) ≤ M < 10^n` and candidate value `M * 10^k`. -/
def roundSig (q : ℚ) (n : Nat) : Int × Int :=
  let e := floorLog10 q
  let k := e - (n : Int) + 1
  let M := roundHalfEven (qdiv q (pow10 k))
  if M = (npow 10 n : Nat) then ((npow 10 (n - 1) : Nat), k + 1) else (M, k)

/-- Decimal digit characters of a natural number (most significant first). -/
def natDigits (n : Nat) : List Char :=
  (Nat.toDigits 10 n)

/-- Render signless digits `M` (as a digit list) with decimal exponent `e10`
(the power of ten of the leading digit), in CPython's fixed/scientific
format. -/
def formatDigits (ds : List Char) (e10 : Int) : String :=
  let len : Int := ds.length
  if -4 ≤ e10 && e10 < 16 then
    if len - 1 ≤ e10 then
      String.mk (ds ++ List.replicate (e10 - (len - 1)).toNat '0') ++ ".0"
    else if 0 ≤ e10 then
      String.mk (ds.take (e10 + 1).toNat) ++ "." ++ String.mk (ds.drop (e10 + 1).toNat)
    else
      "0." ++ String.mk (List.replicate (-e10 - 1).toNat '0' ++ ds)
  else
    let mant :=
      match ds with
      | [d] => String.mk [d]
      | d :: rest => String.mk [d] ++ "." ++ String.mk rest
      | [] => "0"
    let ae := (if e10 < 0 then -e10 else e10).toNat
    let estr := (if ae < 10 then "0" else "") ++ String.mk (natDigits ae)
    mant ++ "e" ++ (if e10 < 0 then "-" else "+") ++ estr

/-- Search, for `n = 1, …, fuel`, for the shortest `n`-digit decimal that
rounds back to the positive binary64 value `aq`; render the first hit. -/
def shortestDigits (aq : ℚ) : Nat → Nat → String
  | 0, _ => ""
  | fuel + 1, n =>
    let (M, k) := roundSig aq n
    if roundDoubleQ (qmul (mkRat M 1) (pow10 k)) = .finite aq then
      formatDigits (natDigits M.toNat) (k + (n : Int) - 1)
    else if fuel = 0 then formatDigits (natDigits M.toNat) (k + (n : Int) - 1)
    else shortestDigits aq fuel (n + 1)

/-- Python `repr`/`str` of a float. -/
def floatRepr : PyFloat → String
  | .nan => "nan"
  | .inf => "inf"
  | .neginf => "-inf"
  | .finite q =>
    if q = 0 then "0.0"
    else (if Rat.blt q 0 then "-" else "") ++ shortestDigits (qabs q) 17 1

/-! ## JSON values

The configuration store is `self.config`, initially a Python dict; after
`load_config` it can be any value `json.load` produces, so it is modelled by
the full JSON value type.  Objects are association lists in insertion order,
mirroring Python dicts. -/

inductive Json where
  | str (s : String)
  | num (x : PyFloat)
  | int (n : Int)
  | bool (b : Bool)
  | null
  | arr (elems : List Json)
  | obj (kvs : List (String × Json))

/-- Python `repr` of an integer. -/
def intRepr (n : Int) : String :=
  if n < 0 then "-" ++ String.mk (natDigits (-n).toNat) else String.mk (natDigits n.toNat)

mutual

/-- Python `repr` of a JSON-shaped value (the rendering used for values
nested inside containers).  String escaping beyond quoting is not needed by
any value this development evaluates. -/
def reprJson : Json → String
  | .str s => "'" ++ s ++ "'"
  | .num x => floatRepr x
  | .int n => intRepr n
  | .bool b => if b then "True" else "False"
  | .null => "None"
  | .arr xs => "[" ++ String.intercalate ", " (reprJsonList xs) ++ "]"
  | .obj kvs => "\x7b" ++ String.intercalate ", " (reprJsonPairs kvs) ++ "\x7d"

def reprJsonList : List Json → List String
  | [] => []
  | x :: xs => reprJson x :: reprJsonList xs

def reprJsonPairs : List (String × Json) → List String
  | [] => []
  | kv :: rest => ("'" ++ kv.1 ++ "': " ++ reprJson kv.2) :: reprJsonPairs rest

end

/-- Python `str` of a JSON-shaped value (`str` on a string is the string
itself; on every other value it agrees with `repr`). -/
def strJson : Json → String
  | .str s => s
  | v => reprJson v

/-! ## `datetime.datetime.strptime(value, "%Y-%m-%d")`

CPython's `_strptime` compiles `%Y` to four digits and `%m`/`%d` to the
regexes `1[0-2]|0[1-9]|[1-9]` and `3[01]|[12]\d|0[1-9]|[1-9]`; the matched
numbers are then validated by the `datetime` constructor (year ≥ 1, day
within the month's length). -/

/-- Match the month field regex `1[0-2]|0[1-9]|[1-9]` at the head. -/
def parseMonth : List Char → Option (Nat × List Char)
  | c1 :: c2 :: r =>
    if c1 = '1' && (c2 = '0' || c2 = '1' || c2 = '2') then some (10 + digitVal c2, r)
    else if c1 = '0' && isDigit19 c2 then some (digitVal c2, r)
    else if isDigit19 c1 then some (digitVal c1, c2 :: r)
    else none
  | [c1] => if isDigit19 c1 then some (digitVal c1, []) else none
  | [] => none

/-- Match the day field regex `3[01]|[12]\d|0[1-9]|[1-9]` at the head. -/
def parseDay : List Char → Option (Nat × List Char)
  | c1 :: c2 :: r =>
    if c1 = '3' && (c2 = '0' || c2 = '1') then some (30 + digitVal c2, r)
    else if (c1 = '1' || c1 = '2') && isDigitCh c2 then
      some (digitVal c1 * 10 + digitVal c2, r)
    else if c1 = '0' && isDigit19 c2 then some (digitVal c2, r)
    else if isDigit19 c1 then some (digitVal c1, c2 :: r)
    else none
  | [c1] => if isDigit19 c1 then some (digitVal c1, []) else none
  | [] => none

def isLeapYear (y : Nat) : Bool :=
  y % 4 = 0 && (y % 100 ≠ 0 || y % 400 = 0)

def daysInMonth (y m : Nat) : Nat :=
  if m = 2 then (if isLeapYear y then 29 else 28)
  else if m = 4 || m = 6 || m = 9 || m = 11 then 30
  else 31

/-- Whether `datetime.datetime.strptime(s, "%Y-%m-%d")` succeeds. -/
def strptimeYmd (s : String) : Bool :=
  match s.data with
  | y1 :: y2 :: y3 :: y4 :: '-' :: rest =>
    if isDigitCh y1 && isDigitCh y2 && isDigitCh y3 && isDigitCh y4 then
      let y := digitsToNat [y1, y2, y3, y4]
      match parseMonth rest with
      | some (m, '-' :: rest2) =>
        match parseDay rest2 with
        | some (d, []) => decide (1 ≤ y) && decide (d ≤ daysInMonth y m)
        | _ => false
      | _ => false
    else false
  | _ => false

/-! ## The configuration shell (`crypto_shell.py`) -/

/-- `CryptoShell.available_exchanges`. -/
def available_exchanges : List String := ["coinbase", "kraken", "binance", "bitfinex"]

/-- `CryptoShell.available_strategies`. -/
def available_strategies : List String :=
  ["random", "sma_crossover", "rsi_strategy", "sentiment_based"]

/-- `CryptoShell.config`, the default configuration (0.25 is exactly 1/4 in
binary64). -/
def defaultConfig : List (String × Json) :=
  [("exchange", .str "coinbase"),
   ("strategy", .str "random"),
   ("coin", .str "BTC"),
   ("quote", .str "USD"),
   ("cash_at_risk", .num (.finite (mkRat 1 4))),
   ("start_date", .str "2023-06-01"),
   ("end_date", .str "2023-12-31"),
   ("min_timestep", .str "day")]

/-- The eight configuration keys, in their definition order. -/
def eightKeys : List String :=
  ["exchange", "strategy", "coin", "quote", "cash_at_risk",
   "start_date", "end_date", "min_timestep"]

/-- First-match lookup in an association list (Python dicts have unique
keys, so this is dict access). -/
def lookupKey : List (String × Json) → String → Option Json
  | [], _ => none
  | kv :: rest, k => if kv.1 = k then some kv.2 else lookupKey rest k

/-- `k in dict`. -/
def containsKey (kvs : List (String × Json)) (k : String) : Bool :=
  (lookupKey kvs k).isSome

/-- `dict[k] = v` for a key already present: update in place, preserving
insertion order. -/
def updateKey : List (String × Json) → String → Json → List (String × Json)
  | [], _, _ => []
  | kv :: rest, k, v =>
    if kv.1 = k then (kv.1, v) :: rest else kv :: updateKey rest k v

/-- `str.lower()` (ASCII fragment). -/
def pyLower (s : String) : String := String.mk (s.data.map lcChar)

/-- `str.split()` with no argument: split on whitespace runs, dropping
empty pieces. -/
def pySplitAux : List Char → List Char → List String
  | [], acc => if acc.isEmpty then [] else [String.mk acc.reverse]
  | c :: cs, acc =>
    if isSpaceCh c then
      (if acc.isEmpty then pySplitAux cs [] else String.mk acc.reverse :: pySplitAux cs [])
    else pySplitAux cs (c :: acc)

def pySplit (s : String) : List String := pySplitAux s.data []

/-- The messages `do_set_parameter`/`do_save_config`/`do_load_config` print
(colour escapes elided; each constructor stands for one `print` message of
the source). -/
inductive Msg where
  | errMissingArgs
  | errUnknownExchange (v : String)
  | errUnknownStrategy (v : String)
  | errCashRange
  | errCashNotFloat
  | errBadDate
  | okSet (name : String) (value : Json)
  | errUnknownParam (name : String)
  | saved (filename : String)
  | loaded (filename : String)
  | errFileNotFound (filename : String)
  | errInvalidJson (filename : String)
  | exnTypeError

/-- The per-name validation chain of `do_set_parameter` (lines 114–140):
returns the coerced value to store, or the error message printed before the
early `return`. -/
def validateParam (name value : String) : Except Msg Json :=
  if name = "exchange" then
    if available_exchanges.contains value then .ok (.str value)
    else .error (.errUnknownExchange value)
  else if name = "strategy" then
    if available_strategies.contains value then .ok (.str value)
    else .error (.errUnknownStrategy value)
  else if name = "cash_at_risk" then
    match pyFloatOfString value with
    | none => .error .errCashNotFloat
    | some x =>
      if PyFloat.le x (.finite 0) || PyFloat.gt x (.finite 1) then .error .errCashRange
      else .ok (.num x)
  else if name = "start_date" || name = "end_date" then
    if strptimeYmd value then .ok (.str value) else .error .errBadDate
  else .ok (.str value)

/-- `do_set_parameter` after the argument split: lower-case the name,
validate, then store iff the (lowered) name is a key of the config dict. -/
def setParamChecked (name0 value : String) (kvs : List (String × Json)) :
    List (String × Json) × Msg :=
  match validateParam (pyLower name0) value with
  | .error m => (kvs, m)
  | .ok v =>
    if containsKey kvs (pyLower name0) then
      (updateKey kvs (pyLower name0) v, .okSet (pyLower name0) v)
    else (kvs, .errUnknownParam (pyLower name0))

/-- `show_config`: one `key: str(value)` line per config entry, in order. -/
def showConfigLines (kvs : List (String × Json)) : List String :=
  kvs.map (fun kv => kv.1 ++ ": " ++ strJson kv.2)

/-- A stored file: either a JSON document (kept as its parsed value, since
`json.dump`/`json.load` round-trip values exactly) or malformed content on
which `json.load` raises `JSONDecodeError`. -/
inductive FileContent where
  | good (j : Json)
  | bad

/-- Shell state: the configuration store plus the file system visible to
`save_config`/`load_config` (writes always succeed in this model). -/
structure ShellState where
  config : Json
  fs : List (String × FileContent)

def fsLookup : List (String × FileContent) → String → Option FileContent
  | [], _ => none
  | kv :: rest, k => if kv.1 = k then some kv.2 else fsLookup rest k

/-- The filename defaulting and `.json`-extension appending shared by
`do_save_config` and `do_load_config`. -/
def normFilename (arg : String) : String :=
  if arg = "" then "crypto_config.json"
  else if arg.data.reverse.take 5 = ".json".data.reverse then arg
  else arg ++ ".json"

/-- `os.path.join('crypto_journey', f)` (an absolute second component
replaces the first). -/
def joinPath (a b : String) : String :=
  match b.data with
  | '/' :: _ => b
  | _ => a ++ "/" ++ b

/-- `do_save_config` (writes the serialized current config). -/
def doSaveConfig (arg : String) (st : ShellState) : ShellState × Msg :=
  let filename := normFilename arg
  ({ st with fs := (joinPath "crypto_journey" filename, .good st.config) :: st.fs },
   .saved filename)

/-- `do_load_config`: missing file and malformed JSON are caught and leave
the config unchanged; a parsed document replaces the config wholesale. -/
def doLoadConfig (arg : String) (st : ShellState) : ShellState × Msg :=
  let filename := normFilename arg
  match fsLookup st.fs (joinPath "crypto_journey" filename) with
  | none => (st, .errFileNotFound filename)
  | some .bad => (st, .errInvalidJson filename)
  | some (.good j) => ({ st with config := j }, .loaded filename)

/-- The three store-affecting shell commands of the key-set claim. -/
inductive Cmd where
  | set_parameter (arg : String)
  | save_config (arg : String)
  | load_config (arg : String)
  deriving DecidableEq, Repr

/-- One command dispatch.  A `set_parameter` on a non-dict config (possible
only after loading a non-object document) never updates the store: in
Python the membership test or item assignment raises `TypeError` (or the
unknown-parameter message is printed); either way `config` is unchanged. -/
def execCmd : Cmd → ShellState → ShellState × List Msg
  | .set_parameter arg, st =>
    (match pySplit arg with
     | n :: v :: _ =>
       (match st.config with
        | .obj kvs =>
          let r := setParamChecked n v kvs
          ({ st with config := .obj r.1 }, [r.2])
        | _ => (st, [.exnTypeError]))
     | _ => (st, [.errMissingArgs]))
  | .save_config arg, st => let r := doSaveConfig arg st; (r.1, [r.2])
  | .load_config arg, st => let r := doLoadConfig arg st; (r.1, [r.2])

def execTrace (cmds : List Cmd) (st : ShellState) : ShellState :=
  match cmds with
  | [] => st
  | c :: cs => execTrace cs (execCmd c st).1

/-- Multiset equality of key lists. -/
def sameKeys (l1 l2 : List String) : Bool :=
  l1.length = l2.length && l2.all (fun k => l1.count k = l2.count k)

/-- The key-set invariant: the config is an object whose keys are exactly
the eight configuration keys. -/
def keysEightB (j : Json) : Bool :=
  match j with
  | .obj kvs => sameKeys (kvs.map Prod.fst) eightKeys
  | _ => false

/-- Whether one command, run in the given state, is harmless to the key
set: any `set_parameter` or `save_config`, and any `load_config` that
either fails or reads an object with exactly the eight keys. -/
def loadOkB (c : Cmd) (st : ShellState) : Bool :=
  match c with
  | .load_config arg =>
    (match fsLookup st.fs (joinPath "crypto_journey" (normFilename arg)) with
     | some (.good j) => keysEightB j
     | _ => true)
  | _ => true

/-- Trace condition for the amended key-set invariant: every `load_config`
in the trace that finds a parseable file reads an object with exactly the
eight keys (checked against the file system at its point of execution). -/
def goodLoadsB : List Cmd → ShellState → Bool
  | [], _ => true
  | c :: cs, st => loadOkB c st && goodLoadsB cs (execCmd c st).1

/-! ## The strategy stub (`randobot.py`)

`MLTrader.position_sizing` and `MLTrader.on_trading_iteration`.  The
external framework's contributions to one iteration — the cash balance, the
`get_last_price` result and the `random.choice([0, 1, 2])` draw — together
with the remembered `self.last_trade` are collected in `TraderInput`; the
calls the iteration makes back into the framework (`sell_all`, and
`create_order` + `submit_order` as one event) are returned in call order. -/

/-- An external-framework call made during a trading iteration. -/
inductive TEvent where
  | sellAll
  | submitOrder (side : String) (quantity : PyFloat)
  deriving DecidableEq, Repr

/-- The environment of one trading iteration. -/
structure TraderInput where
  cash : PyFloat
  cash_at_risk : PyFloat
  lastPrice : Option PyFloat
  last_trade : Option String
  choice : Nat

/-- `MLTrader.position_sizing`: `None` prices short-circuit to quantity 0;
otherwise `quantity = cash * self.cash_at_risk / last_price`, whose division
can raise `ZeroDivisionError`. -/
def position_sizing (cash cash_at_risk : PyFloat) (lastPrice : Option PyFloat) :
    Except PyFloat.Exn (PyFloat × Option PyFloat × PyFloat) :=
  match lastPrice with
  | none => .ok (cash, none, .finite 0)
  | some p =>
    match PyFloat.div (PyFloat.mul cash cash_at_risk) p with
    | .ok quantity => .ok (cash, some p, quantity)
    | .error e => .error e

/-- `MLTrader.on_trading_iteration`: returns the framework calls made (in
order) and the new `self.last_trade`, or the escaping exception. -/
def on_trading_iteration (inp : TraderInput) :
    Except PyFloat.Exn (List TEvent × Option String) :=
  match position_sizing inp.cash inp.cash_at_risk inp.lastPrice with
  | .error e => .error e
  | .ok (cash, last_price, quantity) =>
    match last_price with
    | some p =>
      if PyFloat.gt quantity (.finite 0) then
        if PyFloat.gt cash (PyFloat.mul quantity p) then
          if inp.choice = 0 then .ok ([], inp.last_trade)
          else if inp.choice = 1 then
            .ok ((if inp.last_trade = some "sell" then [TEvent.sellAll] else []) ++
                  [TEvent.submitOrder "buy" quantity], some "buy")
          else if inp.choice = 2 then
            .ok ((if inp.last_trade = some "buy" then [TEvent.sellAll] else []) ++
                  [TEvent.submitOrder "sell" quantity], some "sell")
          else .ok ([], inp.last_trade)
        else .ok ([], inp.last_trade)
      else .ok ([], inp.last_trade)
    | none => .ok ([], inp.last_trade)

/-! ## Association-list lemmas -/

theorem updateKey_map_fst (kvs : List (String × Json)) (k : String) (v : Json) :
    (updateKey kvs k v).map Prod.fst = kvs.map Prod.fst := by
  induction kvs with
  | nil => rfl
  | cons kv rest ih =>
    unfold updateKey
    split
    · simp
    · simpa using ih

theorem lookupKey_updateKey_self (kvs : List (String × Json)) (k : String) (v : Json)
    (h : containsKey kvs k = true) :
    lookupKey (updateKey kvs k v) k = some v := by
  induction kvs with
  | nil => simp [containsKey, lookupKey] at h
  | cons kv rest ih =>
    unfold updateKey
    by_cases hk : kv.1 = k
    · simp [hk, lookupKey]
    · simp only [if_neg hk, lookupKey, hk, if_false]
      exact ih (by simpa [containsKey, lookupKey, hk] using h)

theorem lookupKey_updateKey_other (kvs : List (String × Json)) (k k' : String) (v : Json)
    (h : k' ≠ k) :
    lookupKey (updateKey kvs k v) k' = lookupKey kvs k' := by
  induction kvs with
  | nil => rfl
  | cons kv rest ih =>
    unfold updateKey
    by_cases hk : kv.1 = k
    · have hne : ¬ (k = k') := fun hh => h hh.symm
      simp [if_pos hk, lookupKey, hk, hne]
    · simp only [if_neg hk, lookupKey]
      split
      · rfl
      · exact ih

theorem lookupKey_mem (kvs : List (String × Json)) (k : String) (j : Json)
    (h : lookupKey kvs k = some j) : (k, j) ∈ kvs := by
  induction kvs with
  | nil => simp [lookupKey] at h
  | cons kv rest ih =>
    unfold lookupKey at h
    split at h
    · rename_i hk
      injection h with h2
      have hkv : kv = (k, j) := by
        cases kv
        simp_all
      rw [hkv]
      exact List.mem_cons_self _ _
    · exact .tail _ (ih h)

/-! ## Claim theorems -/

/-- C5: for every configuration state and every filename argument,
`save_config` followed by `load_config` with the same argument succeeds and
reproduces the identical configuration (the two commands agree on filename
defaulting, `.json` appending and the `crypto_journey` directory, and the
saved document parses back to the saved value). -/
theorem save_then_load_roundtrip (st : ShellState) (arg : String) :
    (doLoadConfig arg (doSaveConfig arg st).1).1.config = st.config ∧
    (doLoadConfig arg (doSaveConfig arg st).1).2 = .loaded (normFilename arg) ∧
    (doSaveConfig arg st).2 = .saved (normFilename arg) := by
  refine ⟨?_, ?_, rfl⟩ <;> simp [doSaveConfig, doLoadConfig, fsLookup]

/-- C6: `load_config` of a missing file reports a file-not-found error and
`load_config` of a malformed-JSON file reports a JSON-format error; in both
cases the configuration (indeed the whole state) is unchanged, and the
command returns normally rather than propagating an exception. -/
theorem load_config_error_handling (st : ShellState) (arg : String) :
    (fsLookup st.fs (joinPath "crypto_journey" (normFilename arg)) = none →
      doLoadConfig arg st = (st, .errFileNotFound (normFilename arg))) ∧
    (fsLookup st.fs (joinPath "crypto_journey" (normFilename arg)) = some .bad →
      doLoadConfig arg st = (st, .errInvalidJson (normFilename arg))) := by
  constructor <;> intro h <;> simp [doLoadConfig, h]

/-- Witness for C6 at concrete states: an empty file system (missing file)
and a file system holding malformed content at the default path. -/
theorem load_config_error_handling_witness :
    doLoadConfig "" ⟨.obj defaultConfig, []⟩ =
      (⟨.obj defaultConfig, []⟩, .errFileNotFound "crypto_config.json") ∧
    doLoadConfig "" ⟨.obj defaultConfig, [("crypto_journey/crypto_config.json", .bad)]⟩ =
      (⟨.obj defaultConfig, [("crypto_journey/crypto_config.json", .bad)]⟩,
        .errInvalidJson "crypto_config.json") :=
  ⟨(load_config_error_handling _ "").1 rfl, (load_config_error_handling _ "").2 rfl⟩

/-- C7: in a trading iteration where the price lookup returns `None`, the
computed position size is zero, no framework call (liquidation or order) is
made, the remembered side is unchanged, and no exception escapes. -/
theorem none_price_no_order (cash car : PyFloat) (lt : Option String) (choice : Nat) :
    position_sizing cash car none = .ok (cash, none, .finite 0) ∧
    on_trading_iteration ⟨cash, car, none, lt, choice⟩ = .ok ([], lt) :=
  ⟨rfl, rfl⟩

/-- Whether a `do_set_parameter` message is one of its error messages
(everything except the success message is printed as an error). -/
def isErrMsg : Msg → Bool
  | .okSet _ _ => false
  | _ => true

/-- Whether a `do_set_parameter` message is the success message. -/
def isOkSetMsg : Msg → Bool
  | .okSet _ _ => true
  | _ => false

/-- Whether `do_set_parameter` rejects the pair, as implemented: the
per-name validation chain fails, or the (lowered) name is not a key of the
configuration dict. -/
def rejectsB (name0 value : String) (kvs : List (String × Json)) : Bool :=
  match validateParam (pyLower name0) value with
  | .error _ => true
  | .ok _ => !containsKey kvs (pyLower name0)

theorem validateParam_error_isErr (n v : String) (m : Msg)
    (h : validateParam n v = .error m) : isErrMsg m = true := by
  unfold validateParam at h
  repeat' split at h
  all_goals cases h
  all_goals rfl

/-- C4: whenever `do_set_parameter` rejects a name/value pair (bad enum
member, out-of-range or unparsable `cash_at_risk`, malformed date, or an
unknown key), it surfaces an error message and leaves the configuration
store completely unchanged.  (Which pairs are rejected is characterized
separately for `cash_at_risk`.) -/
theorem set_parameter_atomic_on_rejection (n v : String) (kvs : List (String × Json))
    (h : rejectsB n v kvs = true) :
    (setParamChecked n v kvs).1 = kvs ∧ isErrMsg (setParamChecked n v kvs).2 = true := by
  unfold rejectsB at h
  unfold setParamChecked
  cases hv : validateParam (pyLower n) v with
  | error m =>
    exact ⟨rfl, validateParam_error_isErr _ _ _ hv⟩
  | ok jv =>
    rw [hv] at h
    simp only [Bool.not_eq_true'] at h
    simp [h, isErrMsg]

/-- Witness for C4: the spec's own example `set_parameter exchange foo`
against the default configuration. -/
theorem set_parameter_atomic_on_rejection_witness :
    rejectsB "exchange" "foo" defaultConfig = true ∧
    (setParamChecked "exchange" "foo" defaultConfig).1 = defaultConfig ∧
    isErrMsg (setParamChecked "exchange" "foo" defaultConfig).2 = true :=
  ⟨by decide,
   (set_parameter_atomic_on_rejection "exchange" "foo" defaultConfig (by decide)).1,
   (set_parameter_atomic_on_rejection "exchange" "foo" defaultConfig (by decide)).2⟩

/-- C2 counterexample: `float("nan")` parses, NaN satisfies neither
`0 < x` nor `x ≤ 1` (IEEE comparisons on NaN are false), yet
`set_parameter cash_at_risk nan` accepts and stores it, because the
rejection test `x <= 0 or x > 1` is also false on NaN. -/
theorem cash_at_risk_nan_counterexample :
    pyFloatOfString "nan" = some .nan ∧
    PyFloat.lt (.finite 0) .nan = false ∧
    PyFloat.le .nan (.finite 1) = false ∧
    setParamChecked "cash_at_risk" "nan" defaultConfig =
      (updateKey defaultConfig "cash_at_risk" (.num .nan),
        .okSet "cash_at_risk" (.num .nan)) ∧
    lookupKey (setParamChecked "cash_at_risk" "nan" defaultConfig).1 "cash_at_risk" =
      some (.num .nan) :=
  ⟨by decide, by decide, by decide, rfl, rfl⟩

/-- C2 amended: `set_parameter cash_at_risk v` accepts `v` (storing the
coerced float) iff `v` parses as a float `x` with `x <= 0` and `x > 1` both
false — i.e. iff `0 < x ≤ 1` or `x` is NaN.  Strings parsing outside that
set, and unparsable strings, are rejected. -/
theorem cash_at_risk_accepts_iff (v : String) (kvs : List (String × Json))
    (hk : containsKey kvs "cash_at_risk" = true) :
    (isOkSetMsg (setParamChecked "cash_at_risk" v kvs).2 = true ↔
      ∃ x, pyFloatOfString v = some x ∧
        (PyFloat.le x (.finite 0) || PyFloat.gt x (.finite 1)) = false) ∧
    (∀ x, pyFloatOfString v = some x →
      (PyFloat.le x (.finite 0) || PyFloat.gt x (.finite 1)) = false →
      setParamChecked "cash_at_risk" v kvs =
        (updateKey kvs "cash_at_risk" (.num x), .okSet "cash_at_risk" (.num x))) := by
  have hl : pyLower "cash_at_risk" = "cash_at_risk" := rfl
  have hname : validateParam "cash_at_risk" v =
      (match pyFloatOfString v with
       | none => .error .errCashNotFloat
       | some x =>
         if PyFloat.le x (.finite 0) || PyFloat.gt x (.finite 1) then .error .errCashRange
         else .ok (.num x)) := rfl
  have key : ∀ x, pyFloatOfString v = some x →
      (PyFloat.le x (.finite 0) || PyFloat.gt x (.finite 1)) = false →
      setParamChecked "cash_at_risk" v kvs =
        (updateKey kvs "cash_at_risk" (.num x), .okSet "cash_at_risk" (.num x)) := by
    intro x hx hr
    unfold setParamChecked
    rw [hl, hname, hx]
    simp [hr, hk]
  refine ⟨⟨?_, ?_⟩, key⟩
  · intro hacc
    unfold setParamChecked at hacc
    rw [hl, hname] at hacc
    cases hx : pyFloatOfString v with
    | none => rw [hx] at hacc; simp [isOkSetMsg] at hacc
    | some x =>
      rw [hx] at hacc
      by_cases hr : (PyFloat.le x (.finite 0) || PyFloat.gt x (.finite 1)) = true
      · simp [hr, isOkSetMsg] at hacc
      · exact ⟨x, rfl, by simpa using hr⟩
  · rintro ⟨x, hx, hr⟩
    rw [key x hx hr]
    rfl

/-- Witness for C2 amended at `v = "0.5"` against the default
configuration. -/
theorem cash_at_risk_accepts_iff_witness :
    containsKey defaultConfig "cash_at_risk" = true ∧
    ((isOkSetMsg (setParamChecked "cash_at_risk" "0.5" defaultConfig).2 = true ↔
       ∃ x, pyFloatOfString "0.5" = some x ∧
         (PyFloat.le x (.finite 0) || PyFloat.gt x (.finite 1)) = false) ∧
     (∀ x, pyFloatOfString "0.5" = some x →
       (PyFloat.le x (.finite 0) || PyFloat.gt x (.finite 1)) = false →
       setParamChecked "cash_at_risk" "0.5" defaultConfig =
         (updateKey defaultConfig "cash_at_risk" (.num x),
           .okSet "cash_at_risk" (.num x)))) :=
  ⟨by decide, cash_at_risk_accepts_iff "0.5" defaultConfig (by decide)⟩

theorem setParamChecked_keys (n v : String) (kvs : List (String × Json)) :
    ((setParamChecked n v kvs).1).map Prod.fst = kvs.map Prod.fst := by
  unfold setParamChecked
  cases hv : validateParam (pyLower n) v with
  | error m => rfl
  | ok jv =>
    by_cases hk : containsKey kvs (pyLower n) = true
    · simp [hk, updateKey_map_fst]
    · simp [hk]

/-- C1 counterexample: `load_config` replaces the configuration wholesale
with whatever JSON document the file holds; loading a file containing `{}`
leaves a configuration with no keys at all, breaking the eight-key
invariant that held beforehand. -/
theorem load_arbitrary_json_breaks_keys_counterexample :
    keysEightB (ShellState.mk (.obj defaultConfig)
      [("crypto_journey/cfg.json", .good (.obj []))]).config = true ∧
    keysEightB (execTrace [.load_config "cfg"]
      (ShellState.mk (.obj defaultConfig)
        [("crypto_journey/cfg.json", .good (.obj []))])).config = false :=
  ⟨by decide, by decide⟩

/-- C1 amended: starting from any state satisfying the eight-key invariant
(in particular the default configuration), any sequence of `set_parameter`,
`save_config` and `load_config` operations preserves the invariant,
provided every `load_config` that successfully parses a file reads a JSON
object with exactly the eight keys; `set_parameter` and `save_config` need
no proviso, and failed loads (missing file, malformed JSON) are harmless,
but loading an arbitrary JSON object replaces the key set with that
object's keys. -/
theorem config_keys_invariant (tr : List Cmd) (st : ShellState)
    (h1 : keysEightB st.config = true) (h2 : goodLoadsB tr st = true) :
    keysEightB (execTrace tr st).config = true := by
  induction tr generalizing st with
  | nil => exact h1
  | cons c cs ih =>
    unfold goodLoadsB at h2
    rw [Bool.and_eq_true] at h2
    obtain ⟨h2a, h2b⟩ := h2
    unfold execTrace
    refine ih _ ?_ h2b
    cases c with
    | set_parameter arg =>
      cases hsp : pySplit arg with
      | nil => simpa [execCmd, hsp] using h1
      | cons a rest =>
        cases rest with
        | nil => simpa [execCmd, hsp] using h1
        | cons b rest2 =>
          cases hcfg : st.config with
          | obj kvs =>
            rw [hcfg] at h1
            simp only [execCmd, hsp, hcfg, keysEightB] at h1 ⊢
            rw [setParamChecked_keys]
            exact h1
          | str s => rw [hcfg] at h1; simp [keysEightB] at h1
          | num x => rw [hcfg] at h1; simp [keysEightB] at h1
          | int k => rw [hcfg] at h1; simp [keysEightB] at h1
          | bool bb => rw [hcfg] at h1; simp [keysEightB] at h1
          | null => rw [hcfg] at h1; simp [keysEightB] at h1
          | arr xs => rw [hcfg] at h1; simp [keysEightB] at h1
    | save_config arg => simpa [execCmd, doSaveConfig] using h1
    | load_config arg =>
      simp only [loadOkB] at h2a
      simp only [execCmd, doLoadConfig]
      cases hfs : fsLookup st.fs (joinPath "crypto_journey" (normFilename arg)) with
      | none => simpa using h1
      | some fc =>
        cases fc with
        | bad => simpa using h1
        | good j =>
          rw [hfs] at h2a
          simpa using h2a

/-- Witness for C1 amended: from the default state, set a parameter, save,
then load the file just saved (an eight-key object). -/
theorem config_keys_invariant_witness :
    (keysEightB (ShellState.mk (.obj defaultConfig) []).config = true ∧
     goodLoadsB [.set_parameter "coin ETH", .save_config "", .load_config ""]
       (ShellState.mk (.obj defaultConfig) []) = true) ∧
    keysEightB (execTrace [.set_parameter "coin ETH", .save_config "", .load_config ""]
      (ShellState.mk (.obj defaultConfig) [])).config = true :=
  ⟨⟨by decide, by decide⟩,
   config_keys_invariant _ _ (by decide) (by decide)⟩

/-- C3 counterexample: `"0.50"` is an in-range value for `cash_at_risk`
(it parses to 0.5 ∈ (0,1]), but after `set_parameter cash_at_risk 0.50`,
`show_config` shows `cash_at_risk: 0.5` — the stored float's repr — and not
exactly the entered value `0.50`. -/
theorem show_config_coerced_float_counterexample :
    validateParam "cash_at_risk" "0.50" = .ok (.num (.finite (mkRat 1 2))) ∧
    "cash_at_risk: 0.5" ∈
      showConfigLines (setParamChecked "cash_at_risk" "0.50" defaultConfig).1 ∧
    "cash_at_risk: 0.50" ∉
      showConfigLines (setParamChecked "cash_at_risk" "0.50" defaultConfig).1 :=
  ⟨rfl, by decide, by decide⟩

/-- C3 amended: for every valid (lower-case) parameter name and accepted
value, `set_parameter` stores the coerced value under that name, the
`show_config` line for that name shows the stored value's rendering — which
equals the entered string for every key except `cash_at_risk`, whose stored
float may print differently — and every other key is unchanged. -/
theorem set_then_show_frame (n v : String) (kvs : List (String × Json)) (jv : Json)
    (hn : pyLower n = n)
    (hval : validateParam n v = .ok jv)
    (hk : containsKey kvs n = true) :
    (setParamChecked n v kvs).2 = .okSet n jv ∧
    lookupKey (setParamChecked n v kvs).1 n = some jv ∧
    (n ++ ": " ++ strJson jv) ∈ showConfigLines (setParamChecked n v kvs).1 ∧
    (∀ k, k ≠ n → lookupKey (setParamChecked n v kvs).1 k = lookupKey kvs k) ∧
    (n ≠ "cash_at_risk" → strJson jv = v) := by
  have hset : setParamChecked n v kvs = (updateKey kvs n jv, .okSet n jv) := by
    unfold setParamChecked
    rw [hn, hval]
    simp [hk]
  refine ⟨by rw [hset], ?_, ?_, ?_, ?_⟩
  · rw [hset]
    exact lookupKey_updateKey_self kvs n jv hk
  · rw [hset]
    have hmem := lookupKey_mem _ _ _ (lookupKey_updateKey_self kvs n jv hk)
    unfold showConfigLines
    exact List.mem_map.mpr ⟨(n, jv), hmem, rfl⟩
  · intro k hkne
    rw [hset]
    exact lookupKey_updateKey_other kvs n k jv hkne
  · intro hne
    unfold validateParam at hval
    repeat' split at hval
    all_goals first
      | (exact absurd (by assumption) hne)
      | cases hval
    all_goals rfl

/-- Witness for C3 amended: `set_parameter coin ETH` on the default
configuration. -/
theorem set_then_show_frame_witness :
    (pyLower "coin" = "coin" ∧
     validateParam "coin" "ETH" = .ok (.str "ETH") ∧
     containsKey defaultConfig "coin" = true) ∧
    ((setParamChecked "coin" "ETH" defaultConfig).2 = .okSet "coin" (.str "ETH") ∧
     lookupKey (setParamChecked "coin" "ETH" defaultConfig).1 "coin" = some (.str "ETH") ∧
     ("coin" ++ ": " ++ strJson (.str "ETH")) ∈
       showConfigLines (setParamChecked "coin" "ETH" defaultConfig).1 ∧
     (∀ k, k ≠ "coin" →
       lookupKey (setParamChecked "coin" "ETH" defaultConfig).1 k =
         lookupKey defaultConfig k) ∧
     ("coin" ≠ "cash_at_risk" → strJson (.str "ETH") = "ETH")) :=
  ⟨⟨rfl, rfl, by decide⟩,
   set_then_show_frame "coin" "ETH" defaultConfig (.str "ETH") rfl rfl (by decide)⟩

/-- Whether a framework call is an order submission. -/
def isSubmitEvent : TEvent → Bool
  | .submitOrder _ _ => true
  | .sellAll => false

/-- C8: when a decision is drawn (price available, positive quantity,
affordability check passed), a buy with remembered side `"sell"` (resp. a
sell with remembered side `"buy"`) issues a liquidate-all call before the
market-order submission and afterwards remembers the new side, while with
any other remembered side no liquidation happens; a hold makes no framework
call and leaves the remembered side unchanged. -/
theorem trade_side_transitions (cash car p q : PyFloat) (lt : Option String)
    (hq : position_sizing cash car (some p) = .ok (cash, some p, q))
    (hqpos : PyFloat.gt q (.finite 0) = true)
    (hafford : PyFloat.gt cash (PyFloat.mul q p) = true) :
    on_trading_iteration ⟨cash, car, some p, lt, 1⟩ =
      .ok ((if lt = some "sell" then [TEvent.sellAll] else []) ++
            [TEvent.submitOrder "buy" q], some "buy") ∧
    on_trading_iteration ⟨cash, car, some p, lt, 2⟩ =
      .ok ((if lt = some "buy" then [TEvent.sellAll] else []) ++
            [TEvent.submitOrder "sell" q], some "sell") ∧
    on_trading_iteration ⟨cash, car, some p, lt, 0⟩ = .ok ([], lt) := by
  refine ⟨?_, ?_, ?_⟩ <;> simp [on_trading_iteration, hq, hqpos, hafford]

/-- Witness for C8: cash 100, `cash_at_risk` 0.5, price 2 (quantity 25,
all guards pass), remembered side `"sell"`. -/
theorem trade_side_transitions_witness :
    on_trading_iteration ⟨.finite 100, .finite (mkRat 1 2), some (.finite 2), some "sell", 1⟩ =
      .ok ([TEvent.sellAll, TEvent.submitOrder "buy" (.finite 25)], some "buy") ∧
    on_trading_iteration ⟨.finite 100, .finite (mkRat 1 2), some (.finite 2), some "sell", 2⟩ =
      .ok ([TEvent.submitOrder "sell" (.finite 25)], some "sell") ∧
    on_trading_iteration ⟨.finite 100, .finite (mkRat 1 2), some (.finite 2), some "sell", 0⟩ =
      .ok ([], some "sell") := by
  have h := trade_side_transitions (.finite 100) (.finite (mkRat 1 2)) (.finite 2)
    (.finite 25) (some "sell") rfl (by decide) (by decide)
  simpa using h

/-- C9 counterexample: with `cash_at_risk = 1` (accepted by the validator),
cash 1 and price 49, binary64 rounding makes
`quantity * last_price = (1/49) * 49 < 1 = cash`, so the affordability
check passes and a buy order IS submitted — refuting both "an order can be
submitted only if cash * cash_at_risk < cash" (here `cash * cash_at_risk`
equals `cash`) and "when cash_at_risk equals 1 … never draws a decision or
submits any order". -/
theorem cash_at_risk_one_submits_counterexample :
    on_trading_iteration ⟨.finite 1, .finite 1, some (.finite 49), none, 1⟩ =
      .ok ([TEvent.submitOrder "buy" (.finite (mkRat 5882252574524729 288230376151711744))],
        some "buy") ∧
    PyFloat.eqb (PyFloat.mul (.finite 1) (.finite 1)) (.finite 1) = true ∧
    (PyFloat.le (.finite 1) (.finite 0) || PyFloat.gt (.finite 1) (.finite 1)) = false := by
  refine ⟨?_, by decide, by decide⟩
  rfl

/-- C9 amended: an order is submitted only when the affordability check of
the source holds, namely `cash > quantity * last_price` computed in
binary64 with `quantity = cash * cash_at_risk / last_price`; rounding can
make this pass even when `cash_at_risk = 1`. -/
theorem order_requires_affordability (inp : TraderInput) (evs : List TEvent)
    (lt2 : Option String)
    (hrun : on_trading_iteration inp = .ok (evs, lt2))
    (hsub : evs.any isSubmitEvent = true) :
    ∃ p q, inp.lastPrice = some p ∧
      position_sizing inp.cash inp.cash_at_risk (some p) = .ok (inp.cash, some p, q) ∧
      PyFloat.gt q (.finite 0) = true ∧
      PyFloat.gt inp.cash (PyFloat.mul q p) = true := by
  unfold on_trading_iteration at hrun
  cases hps : position_sizing inp.cash inp.cash_at_risk inp.lastPrice with
  | error e => rw [hps] at hrun; exact absurd hrun (by simp)
  | ok res =>
    obtain ⟨cash1, lp1, q1⟩ := res
    rw [hps] at hrun
    cases lp1 with
    | none =>
      simp only at hrun
      injection hrun with hok
      injection hok with h1 h2
      subst h1
      simp at hsub
    | some p1 =>
      have hcash : cash1 = inp.cash ∧ (some p1 : Option PyFloat) = inp.lastPrice := by
        unfold position_sizing at hps
        cases hlp : inp.lastPrice with
        | none => rw [hlp] at hps; injection hps with h; injection h with a b; simp_all
        | some p0 =>
          rw [hlp] at hps
          simp only at hps
          cases hdiv : PyFloat.div (PyFloat.mul inp.cash inp.cash_at_risk) p0 with
          | ok qq => rw [hdiv] at hps; injection hps with h; injection h with a b;
                     injection b with b1 b2; simp_all
          | error e => rw [hdiv] at hps; exact absurd hps (by simp)
      obtain ⟨hc1, hlp1⟩ := hcash
      subst hc1
      by_cases hqpos : PyFloat.gt q1 (.finite 0) = true
      · by_cases haff : PyFloat.gt inp.cash (PyFloat.mul q1 p1) = true
        · exact ⟨p1, q1, hlp1.symm, hlp1 ▸ hps, hqpos, haff⟩
        · simp only [hqpos, if_true, Bool.not_eq_true] at hrun
          rw [if_neg haff] at hrun
          injection hrun with hok
          injection hok with h1 h2
          subst h1
          simp [isSubmitEvent] at hsub
      · rw [Bool.not_eq_true] at hqpos
        simp only [hqpos] at hrun
        simp only [Bool.false_eq_true, if_false] at hrun
        injection hrun with hok
        injection hok with h1 h2
        subst h1
        simp [isSubmitEvent] at hsub

/-- Witness for C9 amended: a run that submits (cash 100, `cash_at_risk`
0.5, price 2, buy drawn) satisfies the affordability characterization. -/
theorem order_requires_affordability_witness :
    ∃ p q,
      (⟨.finite 100, .finite (mkRat 1 2), some (.finite 2), none, 1⟩ : TraderInput).lastPrice
        = some p ∧
      position_sizing (.finite 100) (.finite (mkRat 1 2)) (some p) =
        .ok (.finite 100, some p, q) ∧
      PyFloat.gt q (.finite 0) = true ∧
      PyFloat.gt (.finite 100) (PyFloat.mul q p) = true :=
  order_requires_affordability
    ⟨.finite 100, .finite (mkRat 1 2), some (.finite 2), none, 1⟩
    [TEvent.submitOrder "buy" (.finite 25)] (some "buy") rfl (by decide)

/-- C10: `position_sizing` guards only against a `None` price: a price of
exactly `0.0` reaches the division and raises `ZeroDivisionError` out of
`position_sizing`, while every non-`None`, nonzero price divides safely and
returns `quantity = cash * cash_at_risk / last_price`. -/
theorem position_sizing_zero_price (cash car p : PyFloat) :
    (p = .finite 0 → position_sizing cash car (some p) = .error .zeroDivision) ∧
    (p ≠ .finite 0 →
      position_sizing cash car (some p) =
        .ok (cash, some p, PyFloat.divnz (PyFloat.mul cash car) p)) := by
  constructor
  · intro h
    subst h
    rfl
  · intro h
    simp [position_sizing, PyFloat.div, h]

/-- Witness for C10: price `0.0` raises, price `2.0` returns the rounded
quotient. -/
theorem position_sizing_zero_price_witness :
    position_sizing (.finite 100) (.finite (mkRat 1 4)) (some (.finite 0)) =
      .error .zeroDivision ∧
    position_sizing (.finite 100) (.finite (mkRat 1 4)) (some (.finite 2)) =
      .ok (.finite 100, some (.finite 2),
        PyFloat.divnz (PyFloat.mul (.finite 100) (.finite (mkRat 1 4))) (.finite 2)) :=
  ⟨(position_sizing_zero_price (.finite 100) (.finite (mkRat 1 4)) (.finite 0)).1 rfl,
   (position_sizing_zero_price (.finite 100) (.finite (mkRat 1 4)) (.finite 2)).2 (by decide)⟩

end CryptoJourney
